import Mathlib

/-!
Verification of the camera-initialization pipeline
(src/software/pipeline/main_cameraInit.cpp).

The per-view resolution pass is embedded shallowly: each stage of the
pass (sensor-width lookup, 35mm-equivalent estimation, rig detection,
configuration checking, grouping, post-pass policy) becomes a Lean
function over explicit inputs, mirroring the C++ control flow.  C++
doubles are modelled as real numbers where square roots occur and as
rationals elsewhere; the sentinel value -1 used by the program for
"unresolved" is kept as such.
-/

namespace CameraInit

/-! Focal35mmEstimator: lines 398-474 of main_cameraInit.cpp. -/

/-- Diagonal of the 35mm reference frame, `std::sqrt(36.0 * 36.0 + 24.0 * 24.0)`
(line 401). -/
noncomputable def diag24x36 : ℝ := Real.sqrt (36 * 36 + 24 * 24)

/-- Embedding of the sensor-width / focal-length update performed under
`if(hasFocalIn35mmMetadata)` (lines 448-470).  Takes the current sensor
width (-1 when unresolved), the current focal length, the value of the
`Exif:FocalLengthIn35mmFilm` metadata and the image ratio width/height;
returns the updated (sensorWidth, focalLength) pair. -/
noncomputable def estimateFromFocal35mm (sensorWidth focalLength focalIn35mm imageRatio : ℝ) :
    ℝ × ℝ :=
  if sensorWidth = -1 then
    let invRatio := 1 / imageRatio
    if focalLength > 0 then
      let sensorDiag := (focalLength * diag24x36) / focalIn35mm
      (sensorDiag * Real.sqrt (1 / (1 + invRatio * invRatio)), focalLength)
    else
      let sw := diag24x36 * Real.sqrt (1 / (1 + invRatio * invRatio))
      (sw, sw * focalIn35mm / 36)
  else if sensorWidth > 0 ∧ focalLength ≤ 0 then
    let sensorDiag := Real.sqrt (sensorWidth ^ 2 + (sensorWidth / imageRatio) ^ 2)
    (sensorWidth, (sensorDiag * focalIn35mm) / diag24x36)
  else
    (sensorWidth, focalLength)

/-- The initialization-mode tag `camera::EIntrinsicInitMode` as used by the
pass (lines 402, 443, 473). -/
inductive EIntrinsicInitMode where
  | setFromDefaultFov
  | computedFromMetadata
  | estimatedFromMetadata
deriving DecidableEq, Repr

/-- Result of the 35mm-estimation stage for one view: updated sensor width
and focal length, the initialization-mode tag after the stage, and the
entry contributed to the `intrinsicsSetFromFocal35mm` diagnostics map
(keyed by image path, value (sensor width, focal length)), if any. -/
structure Focal35Outcome where
  sensorWidth : ℝ
  focalLength : ℝ
  initMode : EIntrinsicInitMode
  diagEntry : Option (String × ℝ × ℝ)

/-- Embedding of the whole `if(hasFocalIn35mmMetadata)` block
(lines 448-474): when the 35mm metadata is present the numeric update of
`estimateFromFocal35mm` is applied, an entry is emplaced into
`intrinsicsSetFromFocal35mm`, and the initialization mode is set to
ESTIMATED_FROM_METADATA; otherwise everything is left unchanged. -/
noncomputable def applyFocal35 (hasFocalIn35mmMetadata : Bool) (imagePath : String)
    (focalIn35mm imageRatio sensorWidth focalLength : ℝ)
    (initMode : EIntrinsicInitMode) : Focal35Outcome :=
  if hasFocalIn35mmMetadata then
    let p := estimateFromFocal35mm sensorWidth focalLength focalIn35mm imageRatio
    ⟨p.1, p.2, .estimatedFromMetadata, some (imagePath, p.1, p.2)⟩
  else
    ⟨sensorWidth, focalLength, initMode, none⟩

end CameraInit

namespace CameraInit

/-- C1: for a view with 35mm-equivalent metadata, with ratio = w/h and
D = sqrt(36^2+24^2): if the sensor width is unresolved (-1) and the focal
length is known (> 0), the new sensor width is
(focalLength * D / focal35mm) * sqrt(1 / (1 + (1/ratio)^2)) and the focal
length is unchanged; if both are unresolved, the sensor width becomes
D * sqrt(1 / (1 + (1/ratio)^2)) and the focal length then becomes
sensorWidth * focal35mm / 36; if the sensor width is resolved (> 0) and
the focal length is not (≤ 0), the focal length becomes
sqrt(sensorWidth^2 + (sensorWidth/ratio)^2) * focal35mm / D. -/
theorem c1_focal35_formulas (w h : ℕ) (sw fl f35 : ℝ) :
    (sw = -1 → fl > 0 →
      estimateFromFocal35mm sw fl f35 ((w : ℝ) / (h : ℝ)) =
        ((fl * diag24x36 / f35) * Real.sqrt (1 / (1 + (1 / ((w : ℝ) / (h : ℝ))) ^ 2)), fl)) ∧
    (sw = -1 → ¬ fl > 0 →
      estimateFromFocal35mm sw fl f35 ((w : ℝ) / (h : ℝ)) =
        (diag24x36 * Real.sqrt (1 / (1 + (1 / ((w : ℝ) / (h : ℝ))) ^ 2)),
         diag24x36 * Real.sqrt (1 / (1 + (1 / ((w : ℝ) / (h : ℝ))) ^ 2)) * f35 / 36)) ∧
    (sw > 0 → fl ≤ 0 →
      estimateFromFocal35mm sw fl f35 ((w : ℝ) / (h : ℝ)) =
        (sw, Real.sqrt (sw ^ 2 + (sw / ((w : ℝ) / (h : ℝ))) ^ 2) * f35 / diag24x36)) := by
  set r : ℝ := (w : ℝ) / (h : ℝ) with hr
  have hsq : (1 : ℝ) + 1 / r * (1 / r) = 1 + (1 / r) ^ 2 := by ring
  refine ⟨?_, ?_, ?_⟩
  · intro h1 h2
    rw [estimateFromFocal35mm, if_pos h1, if_pos h2]
    simp only [hsq]
  · intro h1 h2
    rw [estimateFromFocal35mm, if_pos h1, if_neg h2]
    simp only [hsq]
  · intro h1 h2
    have hne : ¬ sw = -1 := by intro hc; rw [hc] at h1; norm_num at h1
    rw [estimateFromFocal35mm, if_neg hne, if_pos ⟨h1, h2⟩]

/-- Witness for C1 at w = 3, h = 2, sensorWidth = -1, focalLength = 50,
focal35mm = 35 (the first, focal-known branch). -/
theorem c1_focal35_formulas_witness :
    ((-1 : ℝ) = -1 ∧ (50 : ℝ) > 0) ∧
    estimateFromFocal35mm (-1) 50 35 (((3 : ℕ) : ℝ) / ((2 : ℕ) : ℝ)) =
      ((50 * diag24x36 / 35) *
        Real.sqrt (1 / (1 + (1 / (((3 : ℕ) : ℝ) / ((2 : ℕ) : ℝ))) ^ 2)), 50) :=
  ⟨⟨rfl, by norm_num⟩, (c1_focal35_formulas 3 2 (-1) 50 35).1 rfl (by norm_num)⟩

/-- A helper fact used by the C2 theorems: when the sensor width and the
focal length are both already positive, the numeric update of the 35mm
estimator leaves them unchanged (neither branch of lines 450-470 fires). -/
theorem estimateFromFocal35mm_of_both_known (sw fl f35 r : ℝ) (hsw : sw > 0) (hfl : fl > 0) :
    estimateFromFocal35mm sw fl f35 r = (sw, fl) := by
  have h1 : ¬ sw = -1 := by intro hc; rw [hc] at hsw; norm_num at hsw
  have h2 : ¬ (sw > 0 ∧ fl ≤ 0) := by
    rintro ⟨-, hc⟩; exact absurd hfl (not_lt.mpr hc)
  rw [estimateFromFocal35mm, if_neg h1, if_neg h2]

/-- C2 counterexample: a view whose 35mm metadata is present and whose
sensor width (10) and focal length (50) are both already known keeps its
numeric values, but the pass still overwrites the initialization-mode tag
(here COMPUTED_FROM_METADATA becomes ESTIMATED_FROM_METADATA, line 473)
and still emplaces a 35mm-estimation diagnostics entry (line 472), so the
stage is not a no-op on the tag and the diagnostics buckets. -/
theorem c2_noop_counterexample :
    (applyFocal35 true "img.jpg" 35 (3 / 2) 10 50 .computedFromMetadata).sensorWidth = 10 ∧
    (applyFocal35 true "img.jpg" 35 (3 / 2) 10 50 .computedFromMetadata).focalLength = 50 ∧
    (applyFocal35 true "img.jpg" 35 (3 / 2) 10 50 .computedFromMetadata).initMode ≠
      .computedFromMetadata ∧
    (applyFocal35 true "img.jpg" 35 (3 / 2) 10 50 .computedFromMetadata).diagEntry ≠ none := by
  have he : estimateFromFocal35mm 10 50 35 (3 / 2) = (10, 50) :=
    estimateFromFocal35mm_of_both_known 10 50 35 (3 / 2) (by norm_num) (by norm_num)
  rw [applyFocal35, if_pos rfl]
  refine ⟨by rw [he], by rw [he], by simp, by simp⟩

/-- C2 amended: for every view whose 35mm-equivalent metadata is present
but whose sensor width and focal length are both already known (> 0), the
estimator leaves the sensor width and the focal length unchanged, but it
still sets the initialization-mode tag to estimated-from-metadata and
still records a 35mm-estimation diagnostics entry carrying the unchanged
values: the mark and the entry are applied whenever the 35mm metadata is
present, not only when the estimator contributes a value. -/
theorem c2_noop_amended (imagePath : String) (f35 r sw fl : ℝ)
    (mode : EIntrinsicInitMode) (hsw : sw > 0) (hfl : fl > 0) :
    applyFocal35 true imagePath f35 r sw fl mode =
      ⟨sw, fl, .estimatedFromMetadata, some (imagePath, sw, fl)⟩ := by
  have he : estimateFromFocal35mm sw fl f35 r = (sw, fl) :=
    estimateFromFocal35mm_of_both_known sw fl f35 r hsw hfl
  rw [applyFocal35, if_pos rfl, he]

/-- Witness for the amended C2 at sensorWidth = 10, focalLength = 50. -/
theorem c2_noop_amended_witness :
    ((10 : ℝ) > 0 ∧ (50 : ℝ) > 0) ∧
    applyFocal35 true "img.jpg" 35 (3 / 2) 10 50 .computedFromMetadata =
      ⟨10, 50, .estimatedFromMetadata, some ("img.jpg", 10, 50)⟩ :=
  ⟨⟨by norm_num, by norm_num⟩,
   c2_noop_amended "img.jpg" 35 (3 / 2) 10 50 .computedFromMetadata (by norm_num) (by norm_num)⟩

/-! SensorWidthResolver: lines 423-445 of main_cameraInit.cpp, on top of the
sensorDB library. -/

/-- A sensor-database entry `sensorDB::Datasheet` (brand, model, sensor
width in millimeters). -/
structure Datasheet where
  brand : String
  model : String
  sensorSize : ℚ
deriving DecidableEq, Repr

/-- Modelled from the spec: `sensorDB::getInfo` and `sensorDB::parseDatabase`
are not under src (only their caller is).  Per spec section 4.1 the matching
logic tolerates case/format mismatches of the model string while still
returning the stored datasheet; we model this as an exact (brand, model)
pass over the table followed by a case-insensitive pass. -/
def getInfo (make model : String) (db : List Datasheet) : Option Datasheet :=
  match db.find? (fun d => d.brand == make && d.model == model) with
  | some d => some d
  | none =>
      db.find? (fun d =>
        d.brand.toLower == make.toLower && d.model.toLower == model.toLower)

/-- Result of the sensor-width lookup stage for one view: the resolved
sensor width (none when not found), the entry contributed to the
`unsureSensors` diagnostics map (keyed by (make, model), value
(image path, datasheet)), if any, and the initialization-mode tag after
the stage. -/
structure SensorLookupOutcome where
  sensorWidth : Option ℚ
  unsure : Option ((String × String) × (String × Datasheet))
  initMode : EIntrinsicInitMode
deriving DecidableEq, Repr

/-- Embedding of the database-lookup block (lines 426-445): when make or
model is non-empty and `getInfo` finds a datasheet, the sensor width is the
stored width, an unsure-sensor entry is recorded iff the stored model
string differs from the view model string (line 437), and the mode becomes
COMPUTED_FROM_METADATA iff a positive metadata focal length is present
(line 442). -/
def lookupSensorWidth (make model imagePath : String) (focalLength : ℚ)
    (db : List Datasheet) : SensorLookupOutcome :=
  if make = "" ∧ model = "" then ⟨none, none, .setFromDefaultFov⟩
  else
    match getInfo make model db with
    | some ds =>
        ⟨some ds.sensorSize,
         if ds.model ≠ model then some ((make, model), (imagePath, ds)) else none,
         if focalLength > 0 then .computedFromMetadata else .setFromDefaultFov⟩
    | none => ⟨none, none, .setFromDefaultFov⟩

/-- C3: for a view whose make or model is non-empty and which matches a
sensor-table entry, the resolved sensor width equals the datasheet's stored
width; the unsure diagnostic, keyed by (make, model) and storing the image
path and the datasheet, is recorded iff the datasheet's model string
differs from the view's model string; in particular an exact make/model
match in the table yields a datasheet whose model string equals the
queried one, hence no unsure flag, while a fuzzy mismatch uses the same
width but fires the flag. -/
theorem c3_sensor_lookup (make model imagePath : String) (focalLength : ℚ)
    (db : List Datasheet) (ds : Datasheet)
    (hmeta : ¬ (make = "" ∧ model = ""))
    (hfind : getInfo make model db = some ds) :
    (lookupSensorWidth make model imagePath focalLength db).sensorWidth =
      some ds.sensorSize ∧
    ((lookupSensorWidth make model imagePath focalLength db).unsure =
      if ds.model ≠ model then some ((make, model), (imagePath, ds)) else none) ∧
    ((lookupSensorWidth make model imagePath focalLength db).unsure ≠ none ↔
      ds.model ≠ model) ∧
    ((∃ d ∈ db, d.brand = make ∧ d.model = model) → ds.model = model) := by
  have hres : lookupSensorWidth make model imagePath focalLength db =
      ⟨some ds.sensorSize,
       if ds.model ≠ model then some ((make, model), (imagePath, ds)) else none,
       if focalLength > 0 then .computedFromMetadata else .setFromDefaultFov⟩ := by
    rw [lookupSensorWidth, if_neg hmeta, hfind]
  refine ⟨by rw [hres], by rw [hres], ?_, ?_⟩
  · rw [hres]
    by_cases hmod : ds.model = model
    · simp [hmod]
    · simp [hmod]
  · rintro ⟨d, hd, hbrand, hmodel⟩
    have hex : (db.find? (fun d => d.brand == make && d.model == model)).isSome := by
      rw [List.find?_isSome]
      exact ⟨d, hd, by simp [hbrand, hmodel]⟩
    rw [getInfo] at hfind
    obtain ⟨d2, hd2⟩ := Option.isSome_iff_exists.mp hex
    rw [hd2] at hfind
    have hpred := List.find?_some hd2
    simp only [Bool.and_eq_true, beq_iff_eq] at hpred
    have : d2 = ds := by injection hfind
    rw [← this]
    exact hpred.2

/-- Witness for C3: make Canon, model EOS 5D, matched exactly by the first
table entry with stored width 36; no unsure entry fires. -/
theorem c3_sensor_lookup_witness :
    (¬ ("Canon" = "" ∧ "EOS 5D" = "") ∧
      getInfo "Canon" "EOS 5D" [⟨"Canon", "EOS 5D", 36⟩, ⟨"Nikon", "D90", 24⟩] =
        some ⟨"Canon", "EOS 5D", 36⟩) ∧
    (lookupSensorWidth "Canon" "EOS 5D" "a/b.jpg" 50
        [⟨"Canon", "EOS 5D", 36⟩, ⟨"Nikon", "D90", 24⟩]).sensorWidth = some 36 ∧
    (lookupSensorWidth "Canon" "EOS 5D" "a/b.jpg" 50
        [⟨"Canon", "EOS 5D", 36⟩, ⟨"Nikon", "D90", 24⟩]).unsure = none := by
  have h := c3_sensor_lookup "Canon" "EOS 5D" "a/b.jpg" 50
    [⟨"Canon", "EOS 5D", 36⟩, ⟨"Nikon", "D90", 24⟩] ⟨"Canon", "EOS 5D", 36⟩
    (by simp) (by rfl)
  refine ⟨⟨by simp, by rfl⟩, h.1, ?_⟩
  rw [h.2.1]
  simp

/-! RigDetector: lines 371-390 of main_cameraInit.cpp.  Image paths are
modelled as strings over the generic boost::filesystem format, with
components separated by the slash character. -/

/-- Split a string on every occurrence of a separator character, keeping
empty pieces, in the manner of boost::split and of the decomposition of a
generic path into components. -/
def splitOnChar (sep : Char) (s : String) : List String :=
  (s.toList.foldr (fun c acc =>
     if c = sep then [] :: acc
     else match acc with
       | [] => [[c]]
       | a :: as => (c :: a) :: as) ([[]] : List (List Char))).map (fun l => String.mk l)

/-- Join a list of strings with a separator string between consecutive
elements. -/
def joinWith (sep : String) : List String → String
  | [] => ""
  | a :: as => as.foldl (fun acc s => acc ++ sep ++ s) a

/-- Components of a slash-separated path. -/
def pathComponents (p : String) : List String := splitOnChar '/' p

/-- The string of `fs::path(p).parent_path()`: the path with its last
component removed. -/
def parentPathStr (p : String) : String :=
  joinWith "/" (pathComponents p).dropLast

/-- The filename of a path: its last component. -/
def pathFilename (p : String) : String := (pathComponents p).getLastD ""

/-- The stem of a filename in the manner of boost::filesystem: the dot and
dot-dot filenames are their own stem, otherwise everything before the last
dot (the filename itself when it holds no dot). -/
def stemOfFilename (f : String) : String :=
  if f = "." ∨ f = ".." then f
  else
    let parts := splitOnChar '.' f
    if parts.length ≤ 1 then f else joinWith "." parts.dropLast

/-- The string of `fs::path(p).stem()`. -/
def pathStem (p : String) : String := stemOfFilename (pathFilename p)

/-- Value of a list of decimal digit characters. -/
def natOfDigits (cs : List Char) : ℕ :=
  cs.foldl (fun acc c => 10 * acc + (c.toNat - 48)) 0

/-- Embedding of `std::stoi`: skip leading whitespace, read an optional
sign, then a non-empty run of decimal digits; trailing characters after
the digits are ignored; none models the exceptions thrown by std::stoi,
`std::invalid_argument` when no digits can be read and `std::out_of_range`
when the signed value of the digit run does not fit in int
([-2^31, 2^31 - 1]). -/
def stoi (s : String) : Option ℤ :=
  let cs := s.toList.dropWhile Char.isWhitespace
  let signAndRest : ℤ × List Char :=
    match cs with
    | '-' :: rest => (-1, rest)
    | '+' :: rest => (1, rest)
    | _ => (1, cs)
  let digits := signAndRest.2.takeWhile Char.isDigit
  if digits.isEmpty then none
  else
    let v : ℤ := signAndRest.1 * natOfDigits digits
    if v < -(2 ^ 31) ∨ 2 ^ 31 - 1 < v then none
    else some v

/-- Rig/sub-pose/frame data recorded on a view on successful rig
detection.  The frame index is the stored IndexT value, i.e. the result
of the `static_cast<IndexT>` at line 381 (IndexT is unsigned 32-bit); the
sub-pose index round-trips through IndexT back to the int key of
detectedRigs, which is the identity on every in-range int, so it is kept
as the parsed integer. -/
structure RigInfo where
  rigId : ℕ
  subPoseId : ℤ
  frameId : ℕ
deriving DecidableEq, Repr

/-- Embedding of the rig-detection block (lines 371-390).  The rig-root
hash — `std::hash<std::string>` followed by the conversion to IndexT — is
taken as a parameter, since the standard leaves the hash function
unspecified.  Returns the recorded rig data, or none when the view is
kept as a single image (grandparent stem not "rig", or an stoi exception
— no digits, or a value outside int — caught at line 386). -/
def detectRig (hashF : String → ℕ) (imagePath : String) : Option RigInfo :=
  let parentPath := parentPathStr imagePath
  let rigRoot := parentPathStr parentPath
  if pathStem rigRoot = "rig" then
    match stoi (pathStem imagePath), stoi (pathStem parentPath) with
    | some frameId, some subPoseId =>
        some ⟨hashF rigRoot, subPoseId, (frameId % (2 ^ 32 : ℤ)).toNat⟩
    | _, _ => none
  else none

/-- A string made only of decimal digits, at least one. -/
def isPureNumeric (s : String) : Bool :=
  !s.isEmpty && s.toList.all Char.isDigit

/-- One observation added to the per-(rig, sub-pose) count table
(`detectedRigs[rigId][subPoseId]++`, line 384), the table being modelled
as a counting function. -/
def bumpObservation (tbl : ℕ → ℤ → ℕ) (rigId : ℕ) (subPoseId : ℤ) : ℕ → ℤ → ℕ :=
  fun r s => if r = rigId ∧ s = subPoseId then tbl r s + 1 else tbl r s

/-- C4 counterexample, refuting both directions of the claimed iff.
First, the path a/rig.bak/2x/000005.jpg is recorded as a rig view by the
code (grandparent stem "rig", stoi reads the numeric prefixes 2 and 5)
with rig identity hash of "a/rig.bak", although the grandparent directory
is named "rig.bak", not literally "rig", and the parent directory name
"2x" is not purely numeric — the claim says such a view is non-rig.
Second, the path d/rig/99999999999/1.jpg has a literal rig grandparent
and purely numeric parent and stem, but std::stoi throws out_of_range on
99999999999 (outside int), the catch at line 386 fires and the code
treats the view as a non-rig single image — the claim says it is a rig
view. -/
theorem c4_rig_counterexample :
    (detectRig (fun s => s.length) "a/rig.bak/2x/000005.jpg" = some ⟨9, 2, 5⟩ ∧
     pathFilename (parentPathStr (parentPathStr "a/rig.bak/2x/000005.jpg")) ≠ "rig" ∧
     isPureNumeric "2x" = false) ∧
    (detectRig (fun s => s.length) "d/rig/99999999999/1.jpg" = none ∧
     pathFilename (parentPathStr (parentPathStr "d/rig/99999999999/1.jpg")) = "rig" ∧
     isPureNumeric "99999999999" = true ∧ isPureNumeric "1" = true) := by
  refine ⟨⟨by decide, by decide, by decide⟩, by decide, by decide, by decide, by decide⟩

/-- C4 amended: a view is recorded as part of a rig iff the stem of the
parent of its immediate parent directory is "rig" and std::stoi succeeds
on the immediate parent directory stem and on the file stem — stoi
accepting any string whose first non-whitespace characters form an
optionally signed digit run whose value fits in int, so a numeric prefix
suffices while an out-of-int-range run fails; on match the view receives
the stoi value as sub-pose index and the unsigned 32-bit conversion of
the stoi value as frame index, and a rig identity obtained by hashing the
rig-root path, equal for any two paths sharing the same rig root, and one
observation is added to the per-(rig, sub-pose) count; on stoi failure
the view is treated as a non-rig single image. -/
theorem c4_rig_detection (hashF : String → ℕ) (p : String) :
    ((detectRig hashF p).isSome ↔
      (pathStem (parentPathStr (parentPathStr p)) = "rig" ∧
       (stoi (pathStem p)).isSome ∧ (stoi (pathStem (parentPathStr p))).isSome)) ∧
    (∀ sp f : ℤ, pathStem (parentPathStr (parentPathStr p)) = "rig" →
      stoi (pathStem p) = some f → stoi (pathStem (parentPathStr p)) = some sp →
      detectRig hashF p =
        some ⟨hashF (parentPathStr (parentPathStr p)), sp, (f % (2 ^ 32 : ℤ)).toNat⟩) ∧
    (∀ q : String, ∀ r1 r2 : RigInfo, detectRig hashF p = some r1 →
      detectRig hashF q = some r2 →
      parentPathStr (parentPathStr p) = parentPathStr (parentPathStr q) →
      r1.rigId = r2.rigId) ∧
    (∀ tbl : ℕ → ℤ → ℕ, ∀ rigId : ℕ, ∀ subPoseId : ℤ,
      bumpObservation tbl rigId subPoseId rigId subPoseId = tbl rigId subPoseId + 1) := by
  refine ⟨?_, ?_, ?_, ?_⟩
  · rw [detectRig]
    by_cases hrig : pathStem (parentPathStr (parentPathStr p)) = "rig"
    · rw [if_pos hrig]
      cases hf : stoi (pathStem p) <;> cases hs : stoi (pathStem (parentPathStr p)) <;>
        simp [hrig, hf, hs]
    · rw [if_neg hrig]
      simp [hrig]
  · intro sp f hrig hf hs
    rw [detectRig, if_pos hrig, hf, hs]
  · intro q r1 r2 hp hq hroot
    rw [detectRig] at hp hq
    by_cases hrigp : pathStem (parentPathStr (parentPathStr p)) = "rig"
    · rw [if_pos hrigp] at hp
      by_cases hrigq : pathStem (parentPathStr (parentPathStr q)) = "rig"
      · rw [if_pos hrigq] at hq
        cases hfp : stoi (pathStem p) with
        | none => rw [hfp] at hp; revert hp; cases stoi (pathStem (parentPathStr p)) <;> simp
        | some f1 =>
          cases hsp : stoi (pathStem (parentPathStr p)) with
          | none => rw [hfp, hsp] at hp; simp at hp
          | some s1 =>
            rw [hfp, hsp] at hp
            cases hfq : stoi (pathStem q) with
            | none => rw [hfq] at hq; revert hq; cases stoi (pathStem (parentPathStr q)) <;> simp
            | some f2 =>
              cases hsq : stoi (pathStem (parentPathStr q)) with
              | none => rw [hfq, hsq] at hq; simp at hq
              | some s2 =>
                rw [hfq, hsq] at hq
                have e1 : r1 = ⟨hashF (parentPathStr (parentPathStr p)), s1,
                    (f1 % (2 ^ 32 : ℤ)).toNat⟩ := by
                  injection hp with hp2; rw [← hp2]
                have e2 : r2 = ⟨hashF (parentPathStr (parentPathStr q)), s2,
                    (f2 % (2 ^ 32 : ℤ)).toNat⟩ := by
                  injection hq with hq2; rw [← hq2]
                rw [e1, e2, hroot]
      · rw [if_neg hrigq] at hq; simp at hq
    · rw [if_neg hrigp] at hp; simp at hp
  · intro tbl rigId subPoseId
    rw [bumpObservation]
    simp

/-- Witness for the amended C4: the path data/rig/2/000005.jpg, with
string length as the hash, yields sub-pose index 2, frame index 5 and rig
identity hash of "data/rig". -/
theorem c4_rig_detection_witness :
    (pathStem (parentPathStr (parentPathStr "data/rig/2/000005.jpg")) = "rig" ∧
     stoi (pathStem "data/rig/2/000005.jpg") = some 5 ∧
     stoi (pathStem (parentPathStr "data/rig/2/000005.jpg")) = some 2) ∧
    detectRig (fun s => s.length) "data/rig/2/000005.jpg" = some ⟨8, 2, 5⟩ := by
  refine ⟨⟨by decide, by decide, by decide⟩, ?_⟩
  have h := (c4_rig_detection (fun s => s.length) "data/rig/2/000005.jpg").2.1
    2 5 (by decide) (by decide) (by decide)
  rw [h]
  decide

/-! Rig validation: lines 547-575 of main_cameraInit.cpp.  A detected rig
is the content of `detectedRigs[rigId]`, a `std::map<int, std::size_t>`
from sub-pose index to observation count, modelled as an association list
sorted strictly by key (the std::map ordering invariant). -/

/-- Embedding of the per-rig checks of lines 556-571: with
nbSubPose = number of entries and nbPoses = the count of the first entry
(line 553-554), every entry must have a key inside [0, nbSubPose) and a
count equal to nbPoses. -/
def validateRig (subPoses : List (ℤ × ℕ)) : Bool :=
  match subPoses with
  | [] => true
  | kc0 :: _ =>
      subPoses.all (fun kc =>
        decide (0 ≤ kc.1) && decide (kc.1 < (subPoses.length : ℤ)) && (kc.2 == kc0.2))

/-- Embedding of the sequential rig-validation loop (lines 548-575): when
every detected rig passes `validateRig` a Rig record carrying its number
of sub-poses is materialized per rig, otherwise the run fails. -/
def processDetectedRigs (rigs : List (ℕ × List (ℤ × ℕ))) : Option (List (ℕ × ℕ)) :=
  if rigs.all (fun r => validateRig r.2) then
    some (rigs.map (fun r => (r.1, r.2.length)))
  else none

/-- A helper fact for C5: for a nonempty sub-pose table with strictly
sorted keys, the per-rig validation succeeds iff the key set is exactly
0..length-1 and every count equals the first count. -/
theorem validateRig_eq_true_iff (l : List (ℤ × ℕ))
    (hsorted : l.Pairwise (fun a b => a.1 < b.1)) (hne : l ≠ []) :
    validateRig l = true ↔
      ((l.map Prod.fst).toFinset =
        (Finset.range l.length).image (fun n : ℕ => (n : ℤ)) ∧
       ∀ kc ∈ l, kc.2 = (l.headD (0, 0)).2) := by
  cases l with
  | nil => exact absurd rfl hne
  | cons kc0 rest =>
    have hall : validateRig (kc0 :: rest) = true ↔
        ∀ kc ∈ kc0 :: rest,
          0 ≤ kc.1 ∧ kc.1 < ((kc0 :: rest).length : ℤ) ∧ kc.2 = kc0.2 := by
      simp [validateRig, List.all_eq_true, and_assoc]
    have hnd : ((kc0 :: rest).map Prod.fst).Nodup :=
      (List.pairwise_map.mpr hsorted).imp ne_of_lt
    rw [hall]
    constructor
    · intro hbounds
      constructor
      · apply Finset.eq_of_subset_of_card_le
        · intro k hk
          rw [List.mem_toFinset, List.mem_map] at hk
          obtain ⟨kc, hmem, hkeq⟩ := hk
          obtain ⟨h0, hlt, -⟩ := hbounds kc hmem
          subst hkeq
          rw [Finset.mem_image]
          exact ⟨kc.1.toNat, Finset.mem_range.mpr (by omega), by omega⟩
        · rw [Finset.card_image_of_injective _ Nat.cast_injective, Finset.card_range,
            List.toFinset_card_of_nodup hnd, List.length_map]
      · intro kc hmem
        exact (hbounds kc hmem).2.2
    · rintro ⟨hkeys, hcnt⟩ kc hmem
      have hk : kc.1 ∈ ((kc0 :: rest).map Prod.fst).toFinset := by
        rw [List.mem_toFinset, List.mem_map]
        exact ⟨kc, hmem, rfl⟩
      rw [hkeys, Finset.mem_image] at hk
      obtain ⟨m, hm, hme⟩ := hk
      rw [Finset.mem_range] at hm
      refine ⟨by omega, by omega, hcnt kc hmem⟩

/-- C5: for every detected rig with a nonempty, strictly key-sorted
sub-pose table, the sequential validation either materializes one Rig
record per rig holding its number of sub-poses or fails the run, and it
succeeds iff for every rig the set of observed sub-pose indices is
exactly 0..nbSubPose-1 (nbSubPose being the number of distinct observed
indices) and every observation count equals the count of the first
sub-pose. -/
theorem c5_rig_validation (rigs : List (ℕ × List (ℤ × ℕ)))
    (hsorted : ∀ r ∈ rigs, r.2.Pairwise (fun a b => a.1 < b.1))
    (hne : ∀ r ∈ rigs, r.2 ≠ []) :
    (processDetectedRigs rigs = some (rigs.map (fun r => (r.1, r.2.length))) ∨
     processDetectedRigs rigs = none) ∧
    (processDetectedRigs rigs = some (rigs.map (fun r => (r.1, r.2.length))) ↔
      ∀ r ∈ rigs,
        (r.2.map Prod.fst).toFinset =
          (Finset.range r.2.length).image (fun n : ℕ => (n : ℤ)) ∧
        ∀ kc ∈ r.2, kc.2 = (r.2.headD (0, 0)).2) := by
  constructor
  · by_cases h : rigs.all (fun r => validateRig r.2) = true
    · left; rw [processDetectedRigs, if_pos h]
    · right; rw [processDetectedRigs, if_neg h]
  · constructor
    · intro hsome r hr
      by_cases h : rigs.all (fun r => validateRig r.2) = true
      · rw [List.all_eq_true] at h
        exact (validateRig_eq_true_iff r.2 (hsorted r hr) (hne r hr)).mp (h r hr)
      · rw [processDetectedRigs, if_neg h] at hsome
        exact absurd hsome (by simp)
    · intro hcond
      have h : rigs.all (fun r => validateRig r.2) = true := by
        rw [List.all_eq_true]
        intro r hr
        exact (validateRig_eq_true_iff r.2 (hsorted r hr) (hne r hr)).mpr (hcond r hr)
      rw [processDetectedRigs, if_pos h]

/-- Witness for C5: one rig with identity 5 and sub-pose table
0 observed twice, 1 observed twice validates and materializes a Rig with
two sub-poses. -/
theorem c5_rig_validation_witness :
    ((∀ r ∈ [((5 : ℕ), [((0 : ℤ), 2), (1, 2)])], r.2.Pairwise (fun a b => a.1 < b.1)) ∧
     (∀ r ∈ [((5 : ℕ), [((0 : ℤ), 2), (1, 2)])], r.2 ≠ [])) ∧
    processDetectedRigs [((5 : ℕ), [((0 : ℤ), 2), (1, 2)])] = some [(5, 2)] := by
  refine ⟨⟨by decide, by decide⟩, ?_⟩
  exact (c5_rig_validation [((5 : ℕ), [((0 : ℤ), 2), (1, 2)])]
    (by decide) (by decide)).2.mpr (by decide)

/-! IntrinsicGroupingPolicy: lines 531-544 of main_cameraInit.cpp.  The
stream of values returned by successive `std::rand()` calls is taken as a
parameter (a function from the call index), since the generator is
seeded from wall-clock time (line 313) and its outputs are otherwise
unspecified. -/

/-- Embedding of the intrinsic-identity assignment (lines 531-538) for the
view owning the randIndex-th `std::rand()` draw: an undefined current
identity is replaced by the hash of the built intrinsic, and under
grouping mode 0 the identity is then overwritten by the next random
value. -/
def assignIntrinsicId (groupCameraModel : ℕ) (randStream : ℕ → ℕ) (randIndex : ℕ)
    (currentId : Option ℕ) (hashValue : ℕ) : ℕ :=
  let id := currentId.getD hashValue
  if groupCameraModel = 0 then randStream randIndex else id

/-- C6 counterexample: under grouping mode 0, when the random stream
repeats a value (here the constant stream 7, which `std::rand` may
legally produce over two calls), two distinct views — distinct draw
indices and distinct intrinsic hashes 1 and 2 — receive the same
intrinsic identity, so distinct views are not guaranteed distinct
identities. -/
theorem c6_grouping_counterexample :
    assignIntrinsicId 0 (fun _ => 7) 0 none 1 = assignIntrinsicId 0 (fun _ => 7) 1 none 2 ∧
    (1 : ℕ) ≠ 2 := by
  exact ⟨rfl, by decide⟩

/-- C6 amended: under grouping mode 0 every view's intrinsic identity is
taken fresh from the random stream at its own draw index, ignoring the
metadata-derived hash and any prior identity, and the identities of two
views differ exactly when the stream values at their draw indices differ;
uniqueness across distinct views therefore holds only when the generator
happens not to repeat, which `std::rand` does not guarantee. -/
theorem c6_grouping_mode_zero (randStream : ℕ → ℕ) (i j : ℕ)
    (ci cj : Option ℕ) (hi hj : ℕ) :
    assignIntrinsicId 0 randStream i ci hi = randStream i ∧
    (assignIntrinsicId 0 randStream i ci hi ≠ assignIntrinsicId 0 randStream j cj hj ↔
      randStream i ≠ randStream j) := by
  constructor
  · rw [assignIntrinsicId, if_pos rfl]
  · rw [assignIntrinsicId, assignIntrinsicId, if_pos rfl, if_pos rfl]

/-! Post-pass pass/fail policy: lines 600-642 of main_cameraInit.cpp. -/

/-- Embedding of the two fatal checks performed after the parallel pass
and before `sfmDataIO::Save` (lines 614-615 and 631-636): the run fails
when unknown-sensor images exist and incomplete output is disallowed, or
when incomplete output is disallowed and the complete-view count is
below 1, or below 2 with single-view output disallowed.  A false result
means the data is persisted. -/
def postPassFails (hasUnknownSensors allowIncompleteOutput : Bool)
    (completeViewCount : ℕ) (allowSingleView : Bool) : Bool :=
  (hasUnknownSensors && !allowIncompleteOutput) ||
  (!allowIncompleteOutput &&
    (decide (completeViewCount < 1) ||
     (decide (completeViewCount < 2) && !allowSingleView)))

/-- C8: after the parallel pass and successful rig validation, the run
fails with nothing persisted iff unknown-sensor images exist and
incomplete output is disallowed, or the count of complete views is below
the required minimum — one when single-view output is allowed, two
otherwise — and incomplete output is disallowed; otherwise the result is
persisted. -/
theorem c8_post_pass_policy (hasUnknownSensors allowIncompleteOutput : Bool)
    (completeViewCount : ℕ) (allowSingleView : Bool) :
    postPassFails hasUnknownSensors allowIncompleteOutput completeViewCount allowSingleView =
        true ↔
      ((hasUnknownSensors = true ∧ allowIncompleteOutput = false) ∨
       (completeViewCount < (if allowSingleView then 1 else 2) ∧
        allowIncompleteOutput = false)) := by
  cases hasUnknownSensors <;> cases allowIncompleteOutput <;> cases allowSingleView
  all_goals simp [postPassFails]
  all_goals omega

/-! Configuration validation: checkIntrinsicStringValidity (lines 45-74)
and the override-exclusivity checks (lines 272-299). -/

/-- Embedding of the stream extraction `ss >> readvalue` for a double:
skip leading whitespace, read an optional sign, then a mantissa holding at
least one digit (digits, optionally a dot and more digits), then an
optional exponent; returns the parsed value and the unread characters, or
none when the extraction fails.  Trailing characters that the extraction
does not accumulate (such as an x after the digits) are left unread and
do not make it fail, but an exponent marker e/E after the mantissa is
accumulated together with an optional sign, and when no exponent digits
follow, the accumulated field does not convert as a whole and the
extraction fails (num_get stage 3 requires the entire accumulated
character sequence to convert). -/
def readDouble (cs : List Char) : Option (ℚ × List Char) :=
  let cs1 := cs.dropWhile Char.isWhitespace
  let signAndRest : ℚ × List Char :=
    match cs1 with
    | '-' :: r => (-1, r)
    | '+' :: r => (1, r)
    | _ => (1, cs1)
  let intPart := signAndRest.2.takeWhile Char.isDigit
  let cs3 := signAndRest.2.drop intPart.length
  let fracAndRest : List Char × List Char :=
    match cs3 with
    | '.' :: r => (r.takeWhile Char.isDigit, r.drop (r.takeWhile Char.isDigit).length)
    | _ => ([], cs3)
  if intPart.isEmpty && fracAndRest.1.isEmpty then none
  else
    let mant : ℚ :=
      signAndRest.1 * ((natOfDigits intPart : ℚ) +
        (natOfDigits fracAndRest.1 : ℚ) / ((10 : ℚ) ^ fracAndRest.1.length))
    let expAndRest : Option (ℤ × List Char) :=
      match fracAndRest.2 with
      | c :: r =>
          if c = 'e' ∨ c = 'E' then
            let es : ℤ × List Char :=
              match r with
              | '-' :: rr => (-1, rr)
              | '+' :: rr => (1, rr)
              | _ => (1, r)
            let eds := es.2.takeWhile Char.isDigit
            if eds.isEmpty then none
            else some (es.1 * (natOfDigits eds : ℤ), es.2.drop eds.length)
          else some (0, fracAndRest.2)
      | [] => some (0, [])
    match expAndRest with
    | none => none
    | some er => some (mant * (10 : ℚ) ^ er.1, er.2)

/-- A string that is one complete number: the stream extraction succeeds
and consumes every character. -/
def isNumericString (s : String) : Bool :=
  match readDouble s.toList with
  | some (_, []) => true
  | _ => false

/-- The per-field parse results of a K-matrix string: the string is split
on semicolons (boost::split, line 51) and each field goes through the
stream extraction (lines 62-64). -/
def kFieldVals (kmatrix : String) : List (Option ℚ) :=
  (splitOnChar ';' kmatrix).map (fun f => (readDouble f.toList).map Prod.fst)

/-- The parsed value of field i of a K-matrix string, defaulting to 0. -/
def kFieldValAt (kmatrix : String) (i : ℕ) : ℚ :=
  ((kFieldVals kmatrix).getD i none).getD 0

/-- Embedding of checkIntrinsicStringValidity (lines 45-74): the string
must split into exactly 9 semicolon-separated fields, each accepted by
the stream extraction; on success the values of fields 0, 2 and 5 are
returned as (focal, ppx, ppy) (lines 69-71). -/
def checkIntrinsicStringValidity (kmatrix : String) : Option (ℚ × ℚ × ℚ) :=
  if (splitOnChar ';' kmatrix).length ≠ 9 then none
  else if (kFieldVals kmatrix).all Option.isSome then
    some (kFieldValAt kmatrix 0, kFieldValAt kmatrix 2, kFieldValAt kmatrix 5)
  else none

/-- Embedding of the pre-pass configuration checks (lines 272-299): the
three pairwise exclusivity checks on defaultIntrinsic (set when
non-empty), defaultFocalLengthPix and defaultFieldOfView (set when
positive), then the K-matrix validity check; none models EXIT_FAILURE
before the per-view pass, some carries the effective
(focal, ppx, ppy) defaults. -/
def checkOverrides (kmatrix : String) (focalPix fov : ℚ) : Option (ℚ × ℚ × ℚ) :=
  if kmatrix ≠ "" ∧ focalPix > 0 then none
  else if kmatrix ≠ "" ∧ fov > 0 then none
  else if focalPix > 0 ∧ fov > 0 then none
  else if kmatrix ≠ "" then checkIntrinsicStringValidity kmatrix
  else some (focalPix, -1, -1)

/-- C7 counterexample: the K-matrix string 1x;0;0;0;1;0;0;0;1, whose
first field 1x is not a valid number (the extraction stops at the x, so
the field is not numeric as a whole), is nevertheless accepted by the
configuration check — the stream extraction reads the numeric prefix 1
and ignores the trailing x — so a malformed field does not always exit
with failure as the claim states. -/
theorem c7_kmatrix_counterexample :
    (checkOverrides "1x;0;0;0;1;0;0;0;1" (-1) (-1)).isSome = true ∧
    isNumericString "1x" = false ∧
    (readDouble "1x".toList).map Prod.fst = some 1 := by
  refine ⟨by decide, by decide, ?_⟩
  have h0 : readDouble "1x".toList =
      some ((1 : ℚ) * ((natOfDigits ['1'] : ℚ) +
        (natOfDigits ([] : List Char) : ℚ) / (10 : ℚ) ^ (([] : List Char)).length) *
        (10 : ℚ) ^ (0 : ℤ), ['x']) := rfl
  rw [h0]
  norm_num [natOfDigits, show ('1').toNat - 48 = 1 from rfl]

/-- C7 amended: the run exits with failure before the per-view pass iff
more than one of the three default overrides is set (the K-matrix string
being set when non-empty, the pixel focal length and the field of view
when positive), or the K-matrix string is set and does not split into
exactly 9 semicolon-separated fields, or some field is rejected by the
stream extraction — no leading number at all, or a dangling exponent
marker after the mantissa, which the extraction accumulates and then
fails to convert; a field made of a valid number followed by characters
the extraction does not accumulate is accepted with its numeric prefix;
on acceptance the fields at positions 0, 2 and 5 are read as focal
length, ppx and ppy. -/
theorem c7_config_checks (kmatrix : String) (focalPix fov : ℚ) :
    (checkOverrides kmatrix focalPix fov = none ↔
      ((kmatrix ≠ "" ∧ focalPix > 0) ∨ (kmatrix ≠ "" ∧ fov > 0) ∨
       (focalPix > 0 ∧ fov > 0) ∨
       (kmatrix ≠ "" ∧ checkIntrinsicStringValidity kmatrix = none))) ∧
    (checkIntrinsicStringValidity kmatrix = none ↔
      ((splitOnChar ';' kmatrix).length ≠ 9 ∨
       ∃ f ∈ splitOnChar ';' kmatrix, readDouble f.toList = none)) ∧
    ((splitOnChar ';' kmatrix).length = 9 →
      (∀ f ∈ splitOnChar ';' kmatrix, (readDouble f.toList).isSome) →
      checkIntrinsicStringValidity kmatrix =
        some (kFieldValAt kmatrix 0, kFieldValAt kmatrix 2, kFieldValAt kmatrix 5)) ∧
    (kmatrix ≠ "" → ¬ focalPix > 0 → ¬ fov > 0 →
      checkOverrides kmatrix focalPix fov = checkIntrinsicStringValidity kmatrix) := by
  have hall : (kFieldVals kmatrix).all Option.isSome = true ↔
      ¬ ∃ f ∈ splitOnChar ';' kmatrix, readDouble f.toList = none := by
    rw [List.all_eq_true]
    constructor
    · rintro h ⟨f, hf, hnone⟩
      have hv := h ((readDouble f.toList).map Prod.fst)
        (by rw [kFieldVals]; exact List.mem_map_of_mem _ hf)
      rw [hnone] at hv
      simp at hv
    · intro h v hv
      rw [kFieldVals, List.mem_map] at hv
      obtain ⟨f, hf, rfl⟩ := hv
      cases hrd : readDouble f.toList with
      | none => exact absurd ⟨f, hf, hrd⟩ h
      | some p => simp [hrd]
  refine ⟨?_, ?_, ?_, ?_⟩
  · rw [checkOverrides]
    by_cases h1 : kmatrix ≠ "" ∧ focalPix > 0
    · rw [if_pos h1]; simp [h1]
    · rw [if_neg h1]
      by_cases h2 : kmatrix ≠ "" ∧ fov > 0
      · rw [if_pos h2]; simp [h1, h2]
      · rw [if_neg h2]
        by_cases h3 : focalPix > 0 ∧ fov > 0
        · rw [if_pos h3]; simp [h1, h2, h3]
        · rw [if_neg h3]
          by_cases hk : kmatrix ≠ ""
          · rw [if_pos hk]
            have hfp : ¬ focalPix > 0 := fun hc => h1 ⟨hk, hc⟩
            have hfov : ¬ fov > 0 := fun hc => h2 ⟨hk, hc⟩
            simp [hk, hfp, hfov]
          · rw [if_neg hk]; simp [h1, h2, h3, hk]
  · rw [checkIntrinsicStringValidity]
    by_cases hlen : (splitOnChar ';' kmatrix).length ≠ 9
    · rw [if_pos hlen]; simp [hlen]
    · rw [if_neg hlen]
      by_cases ha : (kFieldVals kmatrix).all Option.isSome = true
      · rw [if_pos ha]
        simp only [hlen, false_or]
        constructor
        · intro hc; exact absurd hc (by simp)
        · intro hex; exact absurd hex (hall.mp ha)
      · rw [if_neg ha]
        simp only [hlen, false_or]
        constructor
        · intro _
          by_contra hex
          exact ha (hall.mpr hex)
        · intro _
          trivial
  · intro hlen hsome
    rw [checkIntrinsicStringValidity, if_neg (by rw [hlen]; simp), if_pos]
    rw [hall]
    rintro ⟨f, hf, hnone⟩
    have := hsome f hf
    rw [hnone] at this
    simp at this
  · intro hk hfp hfov
    rw [checkOverrides, if_neg (by rintro ⟨-, hc⟩; exact hfp hc),
      if_neg (by rintro ⟨-, hc⟩; exact hfov hc),
      if_neg (by rintro ⟨hc, -⟩; exact hfp hc), if_pos hk]

/-- Witness for the amended C7: a fully numeric 9-field K-matrix string
with defaultFocalLengthPix and defaultFieldOfView unset (-1) passes the
configuration check, with fields 0, 2 and 5 read as (focal, ppx, ppy). -/
theorem c7_config_checks_witness :
    ("2;0;3;0;2;4;0;0;1" ≠ "" ∧ ¬ (-1 : ℚ) > 0 ∧
     (splitOnChar ';' "2;0;3;0;2;4;0;0;1").length = 9 ∧
     (∀ f ∈ splitOnChar ';' "2;0;3;0;2;4;0;0;1", (readDouble f.toList).isSome)) ∧
    checkOverrides "2;0;3;0;2;4;0;0;1" (-1) (-1) =
      some (kFieldValAt "2;0;3;0;2;4;0;0;1" 0, kFieldValAt "2;0;3;0;2;4;0;0;1" 2,
        kFieldValAt "2;0;3;0;2;4;0;0;1" 5) := by
  have h := c7_config_checks "2;0;3;0;2;4;0;0;1" (-1) (-1)
  refine ⟨⟨by decide, by decide, by decide, by decide⟩, ?_⟩
  rw [h.2.2.2 (by decide) (by decide) (by decide), h.2.2.1 (by decide) (by decide)]

/-! Concurrency of the parallel per-view pass (lines 366-545): the writes
to state shared between the omp workers, with the synchronization the
source places around each one. -/

/-- One write to shared mutable state inside the parallel loop body, with
whether the source guards it by a `#pragma omp critical` section or a
`#pragma omp atomic` update. -/
structure SharedWriteSite where
  target : String
  sourceLine : ℕ
  guarded : Bool
deriving DecidableEq, Repr

/-- The writes to shared mutable state performed by the parallel per-view
loop, transcribed from lines 366-545 of main_cameraInit.cpp with their
synchronization as written. -/
def parallelPassSharedWrites : List SharedWriteSite :=
  [⟨"detectedRigs increment", 384, true⟩,
   ⟨"completeViewCount increment, existing intrinsic", 415, true⟩,
   ⟨"unsureSensors emplace", 438, false⟩,
   ⟨"intrinsicsSetFromFocal35mm emplace", 472, false⟩,
   ⟨"unknownSensors emplace", 483, true⟩,
   ⟨"noMetadataImagePaths emplace_back", 488, true⟩,
   ⟨"completeViewCount increment, new intrinsic", 511, true⟩,
   ⟨"view intrinsicId set and intrinsics emplace", 542, true⟩]

/-- C9: contrary to the claim, not every write to shared mutable state in
the parallel pass is protected by mutual exclusion: the unsureSensors
emplace (line 438) and the intrinsicsSetFromFocal35mm emplace (line 472)
are performed outside any critical section, and they are the only
unprotected shared writes. -/
theorem c9_unprotected_shared_writes :
    parallelPassSharedWrites.all (fun s => s.guarded) = false ∧
    (parallelPassSharedWrites.filter (fun s => !s.guarded)).map
        (fun s => s.target) =
      ["unsureSensors emplace", "intrinsicsSetFromFocal35mm emplace"] := by
  exact ⟨rfl, rfl⟩

/-! Intrinsic construction (lines 500-529): the intrinsic produced by
sfmDataIO::getViewIntrinsic and the downcast to the pinhole type. -/

/-- The closed set of camera models accepted by the tool
(camera::EINTRINSIC as selectable through defaultCameraModel,
line 168). -/
inductive EINTRINSIC where
  | pinhole
  | radial1
  | radial3
  | brown
  | fisheye4
  | fisheye1
deriving DecidableEq, Repr

/-- Whether a camera model belongs to the pinhole family, the capability
required by `dynamic_cast<camera::Pinhole*>`. -/
def isPinholeFamily : EINTRINSIC → Bool
  | .pinhole => true
  | .radial1 => true
  | .radial3 => true
  | .brown => true
  | .fisheye4 => true
  | .fisheye1 => true

/-- An intrinsic record as built for a view: camera-model tag, focal
length in pixels, principal point and serial number. -/
structure IntrinsicRecord where
  model : EINTRINSIC
  focalLengthPix : ℚ
  ppx : ℚ
  ppy : ℚ
  serialNumber : String
deriving DecidableEq, Repr

/-- Modelled from the spec: sfmDataIO::getViewIntrinsic is not under src
(only its caller is).  Per spec sections 3 and 4.3 it constructs an
intrinsic whose camera-model tag is the default override or the fixed
default family, in every case drawn from the closed camera-model set. -/
def getViewIntrinsic (model : EINTRINSIC) (focalLengthPix ppx ppy : ℚ)
    (serialNumber : String) : IntrinsicRecord :=
  ⟨model, focalLengthPix, ppx, ppy, serialNumber⟩

/-- Embedding of `dynamic_cast<camera::Pinhole*>` on an intrinsic record:
some when the record's model is of the pinhole family, none modelling the
null pointer. -/
def dynamicCastPinhole (i : IntrinsicRecord) : Option IntrinsicRecord :=
  if isPinholeFamily i.model then some i else none

/-- C10: for every view reaching the intrinsic build step, the intrinsic
returned by getViewIntrinsic is of the pinhole family — every member of
the closed camera-model set has the pinhole capability — so the
dynamic_cast pointer is non-null, as required by the
setInitializationMode call made through it before the null test
(line 505) and by the later serial-number overrides (lines 521, 527). -/
theorem c10_pinhole_cast (model : EINTRINSIC) (focalLengthPix ppx ppy : ℚ)
    (serialNumber : String) :
    dynamicCastPinhole (getViewIntrinsic model focalLengthPix ppx ppy serialNumber) =
      some (getViewIntrinsic model focalLengthPix ppx ppy serialNumber) := by
  rw [dynamicCastPinhole, if_pos]
  cases model <;> rfl

end CameraInit
